import Mathlib

/-! Verification development for the backtesting core of the
Algo-Trading-System-with-ML-Automation repository.

The definitions below are a shallow embedding of `backtester.py`:
the `Backtester` methods `run_backtest`, `_backtest_stock`,
`_calculate_performance_metrics` and `get_portfolio_summary`.
Python floats are modelled as `ℚ` (the one exception is the Sharpe
ratio, which needs a square root and is modelled in `ℝ`); signal and
trade dicts become structures with the same field names; a Python
exception escaping to the `except` handler of `_backtest_stock` is
modelled by an `Option` that is `none`.
-/

namespace AlgoTrading

/-! Section: Dates -/

/-- Structure holding a parsed calendar date (year, month, day), the result of
`datetime.strptime(s, '%Y-%m-%d')` on a date string. -/
structure Date where
  year : Nat
  month : Nat
  day : Nat
deriving DecidableEq

/-- Day number of a date: the standard civil-calendar day-count algorithm
(days since 0000-03-01 in the proleptic Gregorian calendar).  This models the
day arithmetic that Python's `datetime` subtraction (`.days`, line 57-58 of
`backtester.py`) performs. -/
def Date.toDays (dt : Date) : Nat :=
  let y := if dt.month ≤ 2 then dt.year - 1 else dt.year
  let era := y / 400
  let yoe := y % 400
  let mp := (dt.month + 9) % 12
  let doy := (153 * mp + 2) / 5 + (dt.day - 1)
  let doe := yoe * 365 + yoe / 4 - yoe / 100 + doy
  era * 146097 + doe

/-- Helper splitting a character list at every `'-'`, as `"A-B-C"` splits into
`["A", "B", "C"]`. -/
def splitOnDash : List Char → List (List Char)
  | [] => [[]]
  | c :: cs =>
    if c = '-' then [] :: splitOnDash cs
    else
      match splitOnDash cs with
      | [] => [[c]]
      | g :: gs => (c :: g) :: gs

/-- Helper reading a nonempty all-digit character list as a natural number;
any other character list yields `none`. -/
def readNatDigits (cs : List Char) : Option Nat :=
  if cs ≠ [] ∧ cs.all Char.isDigit then
    some (cs.foldl (fun a c => a * 10 + (c.toNat - 48)) 0)
  else none

/-- Models `datetime.strptime(s, '%Y-%m-%d')` (lines 57-58 of
`backtester.py`): the string must consist of three dash-separated all-digit
fields whose month field is in 1..12 and day field in 1..31; any other string
makes `strptime` raise `ValueError`, modelled here as `none`. -/
def parseDate (s : String) : Option Date :=
  match splitOnDash s.toList with
  | [ys, ms, ds] =>
    match readNatDigits ys, readNatDigits ms, readNatDigits ds with
    | some y, some m, some d =>
      if 1 ≤ m ∧ m ≤ 12 ∧ 1 ≤ d ∧ d ≤ 31 then some ⟨y, m, d⟩ else none
    | _, _, _ => none
  | _ => none

/-! Section: String comparison, as Python compares the date strings -/

/-- Lexicographic (code-point) order on strings represented as character
lists: `lexLeb a b` is exactly Python's `a <= b` on strings, the comparison
`sorted(signals, key=lambda x: x['date'])` (line 39) performs on the date
strings. -/
def lexLeb : List Char → List Char → Bool
  | [], _ => true
  | _ :: _, [] => false
  | a :: as, b :: bs =>
    if a.toNat < b.toNat then true
    else if b.toNat < a.toNat then false
    else lexLeb as bs

/-- Comparator used to sort signals: Python string comparison of the two
`'date'` entries. -/
def dateLeb (a b : String) : Bool := lexLeb a.toList b.toList

/-! Section: Signals and trades -/

/-- Model of one signal dict as consumed by `_backtest_stock`: the `'type'`,
`'date'` and `'price'` entries.  The indicator-snapshot entries of the dict
are never read by the backtester and are omitted.  `price` is modelled as
`ℚ`; `date` stays the raw string the code sorts by and later parses. -/
structure Signal where
  type : String
  date : String
  price : ℚ
deriving DecidableEq

/-- Model of one trade dict built at lines 60-70 of `backtester.py`. -/
structure Trade where
  symbol : String
  entry_date : String
  exit_date : String
  entry_price : ℚ
  exit_price : ℚ
  pnl : ℚ
  pnl_pct : ℚ
  holding_days : ℤ
  is_win : Bool
deriving DecidableEq

/-- Comparator on signals used by the sort of line 39: Python string
comparison of the two `'date'` entries. -/
def signalLeb (a b : Signal) : Bool := dateLeb a.date b.date

/-- Models `sorted(signals, key=lambda x: x['date'])` (line 39): Python's
`sorted` is a stable sort comparing the date strings, and `List.mergeSort` is
the stable sort of the Lean library. -/
def sortSignals (signals : List Signal) : List Signal :=
  signals.mergeSort signalLeb

/-- Mutable state of the `for signal in sorted_signals` loop of
`_backtest_stock` (lines 33-36): the accumulated `trades` list and the three
variables `position`, `entry_price`, `entry_date`. -/
structure LoopState where
  trades : List Trade
  position : Option String
  entry_price : ℚ
  entry_date : Option String
deriving DecidableEq

/-- Initial loop state (lines 33-36): no trades, `position = None`,
`entry_price = 0`, `entry_date = None`. -/
def initState : LoopState := ⟨[], none, 0, none⟩

/-- Model of one iteration of the signal loop (lines 41-79 of
`backtester.py`).  The result is `none` when the iteration raises an
exception that escapes to the `except` handler: `datetime.strptime` on an
unparseable date string, or `strptime(None, ...)` when `entry_date` is still
`None`. -/
def stepSignal (symbol : String) (st : LoopState) (s : Signal) : Option LoopState :=
  if s.type = "BUY" ∧ st.position = none then
    some { st with position := some "LONG", entry_price := s.price,
                   entry_date := some s.date }
  else if s.type = "SELL" ∧ st.position = some "LONG" then
    match st.entry_date with
    | none => none
    | some ed =>
      match parseDate s.date, parseDate ed with
      | some exitD, some entryD =>
        let pnl := s.price - st.entry_price
        some { trades := st.trades ++ [{
                 symbol := symbol
                 entry_date := ed
                 exit_date := s.date
                 entry_price := st.entry_price
                 exit_price := s.price
                 pnl := pnl
                 pnl_pct := pnl / st.entry_price * 100
                 holding_days := (Date.toDays exitD : ℤ) - (Date.toDays entryD : ℤ)
                 is_win := decide (pnl > 0) }]
               position := none
               entry_price := 0
               entry_date := none }
      | _, _ => none
  else some st

/-! Section: Performance Aggregator -/

/-- Models `np.mean` on a nonempty list (sum divided by length).  In the
source every call site is guarded so the list is nonempty. -/
def npMean (xs : List ℚ) : ℚ := xs.sum / xs.length

/-- Models Python's `max` on a nonempty list, with the source's `if trades
else 0` guard folded in for the empty list. -/
def listMax : List ℚ → ℚ
  | [] => 0
  | x :: xs => xs.foldl max x

/-- Models Python's `min` on a nonempty list, with the source's `if trades
else 0` guard folded in for the empty list. -/
def listMin : List ℚ → ℚ
  | [] => 0
  | x :: xs => xs.foldl min x

/-- Model of the dict returned by `_calculate_performance_metrics`
(lines 118-132 of `backtester.py`), one field per dict key. -/
structure SymbolResult where
  total_trades : Nat
  winning_trades : Nat
  losing_trades : Nat
  win_rate : ℚ
  total_pnl : ℚ
  total_pnl_pct : ℚ
  avg_win : ℚ
  avg_loss : ℚ
  max_win : ℚ
  max_loss : ℚ
  avg_holding_days : ℚ
  cumulative_returns : List ℚ
  trades : List Trade
deriving DecidableEq

/-- Model of `Backtester._calculate_performance_metrics` (lines 92-132). -/
def _calculate_performance_metrics (trades : List Trade) : SymbolResult :=
  let total_trades := trades.length
  let winning_trades := (trades.filter (fun t => t.is_win)).length
  let losing_trades := total_trades - winning_trades
  { total_trades := total_trades
    winning_trades := winning_trades
    losing_trades := losing_trades
    win_rate := if 0 < total_trades then (winning_trades : ℚ) / (total_trades : ℚ) * 100 else 0
    total_pnl := (trades.map Trade.pnl).sum
    total_pnl_pct := (trades.map Trade.pnl_pct).sum
    avg_win := if 0 < winning_trades then
        npMean ((trades.filter (fun t => t.is_win)).map Trade.pnl) else 0
    avg_loss := if 0 < losing_trades then
        npMean ((trades.filter (fun t => !t.is_win)).map Trade.pnl) else 0
    max_win := listMax (trades.map Trade.pnl)
    max_loss := listMin (trades.map Trade.pnl)
    avg_holding_days := npMean (trades.map (fun t => (t.holding_days : ℚ)))
    cumulative_returns :=
      (trades.foldl (fun acc t => (acc.1 + t.pnl, acc.2 ++ [acc.1 + t.pnl]))
        ((0 : ℚ), ([] : List ℚ))).2
    trades := trades }

/-- Model of `Backtester._backtest_stock` applied to the already-sorted signal
list: the loop of lines 41-79 followed by the `if trades:` check of
lines 82-86.  A `none` from the loop models an exception caught by the
`except` handler (lines 88-90), which also returns `None`. -/
def backtestSorted (symbol : String) (sorted_signals : List Signal) : Option SymbolResult :=
  match sorted_signals.foldlM (stepSignal symbol) initState with
  | none => none
  | some st => if st.trades.isEmpty then none else some (_calculate_performance_metrics st.trades)

/-- Model of `Backtester._backtest_stock` (lines 30-90): sort the signals by
date string, run the loop, and aggregate.  The `data` parameter of the Python
method is never read in its body and is omitted. -/
def _backtest_stock (symbol : String) (signals : List Signal) : Option SymbolResult :=
  backtestSorted symbol (sortSignals signals)

/-- Trade list produced by the simulator part of `_backtest_stock` (the loop
of lines 41-79), before aggregation: `none` models an exception. -/
def simulatorTrades (symbol : String) (signals : List Signal) : Option (List Trade) :=
  ((sortSignals signals).foldlM (stepSignal symbol) initState).map LoopState.trades

/-- Body of the `for symbol in indicators_data.keys()` loop of `run_backtest`
(lines 21-25): process one symbol if it has signals and non-`None` indicator
data, appending its result when `_backtest_stock` returns one. -/
def runStep (signals_data : List (String × List Signal))
    (acc : List (String × SymbolResult)) (p : String × Bool) :
    List (String × SymbolResult) :=
  match signals_data.lookup p.1 with
  | none => acc
  | some sigs =>
    if p.2 then
      match _backtest_stock p.1 sigs with
      | some result => acc ++ [(p.1, result)]
      | none => acc
    else acc

/-- Model of `Backtester.run_backtest` (lines 17-28).  `indicators_data` is an
association list from symbol to the truth of `indicators_data[symbol] is not
None` (the per-symbol data frame itself is never read by `_backtest_stock`);
`signals_data` is an association list from symbol to signal list; the result
dict is an association list in insertion order. -/
def run_backtest (indicators_data : List (String × Bool))
    (signals_data : List (String × List Signal)) : List (String × SymbolResult) :=
  indicators_data.foldl (runStep signals_data) []

/-! Section: Portfolio Aggregator -/

/-- Models `np.std` with its default `ddof=0`: the population variance,
mean of squared deviations from the mean. -/
def npVariance (xs : List ℚ) : ℚ :=
  (xs.map (fun x => (x - npMean xs) ^ 2)).sum / xs.length

/-- Models `np.std` (population standard deviation), the square root of the
population variance; it needs `ℝ`. -/
noncomputable def npStd (xs : List ℚ) : ℝ := Real.sqrt (npVariance xs : ℝ)

/-- Model of the dict returned by `get_portfolio_summary` (lines 159-168 of
`backtester.py`), one field per dict key. -/
structure PortfolioResult where
  total_trades : Nat
  winning_trades : Nat
  win_rate : ℚ
  total_pnl : ℚ
  total_pnl_pct : ℚ
  avg_pnl_per_trade : ℚ
  sharpe_ratio : ℝ
  symbols_traded : Nat

/-- Model of `Backtester.get_portfolio_summary` (lines 134-168). -/
noncomputable def get_portfolio_summary
    (backtest_results : List (String × SymbolResult)) : Option PortfolioResult :=
  if backtest_results.isEmpty then none
  else
    let all_trades := backtest_results.flatMap (fun p => p.2.trades)
    if all_trades.isEmpty then none
    else
      let total_trades := all_trades.length
      let winning_trades := (all_trades.filter (fun t => t.is_win)).length
      let total_pnl := (all_trades.map Trade.pnl).sum
      let returns := all_trades.map Trade.pnl_pct
      some { total_trades := total_trades
             winning_trades := winning_trades
             win_rate := if 0 < total_trades then
                 (winning_trades : ℚ) / (total_trades : ℚ) * 100 else 0
             total_pnl := total_pnl
             total_pnl_pct := (all_trades.map Trade.pnl_pct).sum
             avg_pnl_per_trade := if 0 < total_trades then
                 total_pnl / (total_trades : ℚ) else 0
             sharpe_ratio := if 0 < npStd returns then
                 (npMean returns : ℝ) / npStd returns else 0
             symbols_traded := backtest_results.length }

/-- Literal keys of the dict built by `_calculate_performance_metrics`
(lines 118-132 of `backtester.py`), in source order. -/
def symbolResultFields : List String :=
  ["total_trades", "winning_trades", "losing_trades", "win_rate", "total_pnl",
   "total_pnl_pct", "avg_win", "avg_loss", "max_win", "max_loss",
   "avg_holding_days", "cumulative_returns", "trades"]

/-- Literal keys of the dict built by `get_portfolio_summary`
(lines 159-168 of `backtester.py`), in source order. -/
def portfolioSummaryFields : List String :=
  ["total_trades", "winning_trades", "win_rate", "total_pnl", "total_pnl_pct",
   "avg_pnl_per_trade", "sharpe_ratio", "symbols_traded"]

/-! Section: Spec-side state machine (claim C1)

The following definitions follow the wording of the specification and of
claim C1, not the source, so that the simulator can be proved to refine
them. -/

/-- Position of the spec's FLAT/LONG state machine: `FLAT`, or `LONG`
recording the entry price and entry date of the open position. -/
inductive SpecPos
  | FLAT : SpecPos
  | LONG : ℚ → String → SpecPos
deriving DecidableEq

/-- Calendar-day difference of two `YYYY-MM-DD` date strings, written from
the spec's words ("holding_days = calendar-day difference of exit and entry
dates"). -/
def calendarDayDiff (dexit dentry : String) : ℤ :=
  match parseDate dexit, parseDate dentry with
  | some a, some b => (Date.toDays a : ℤ) - (Date.toDays b : ℤ)
  | _, _ => 0

/-- One transition of the spec's state machine, written from claim C1's
words: a BUY while FLAT opens a LONG recording the signal's price and date
and emits no trade; a SELL while LONG emits exactly one Trade (entry
price/date from the recorded state, exit price/date from the signal,
`pnl = exit_price - entry_price`, `pnl_pct = pnl / entry_price * 100`,
`holding_days` the calendar-day difference, `is_win = (pnl > 0)`) and
returns to FLAT; a BUY while LONG and a SELL while FLAT change nothing. -/
def specStep (symbol : String) (s : SpecPos × List Trade) (sig : Signal) :
    SpecPos × List Trade :=
  if sig.type = "BUY" then
    match s.1 with
    | .FLAT => (.LONG sig.price sig.date, s.2)
    | .LONG _ _ => s
  else if sig.type = "SELL" then
    match s.1 with
    | .FLAT => s
    | .LONG ep ed =>
      let pnl := sig.price - ep
      (.FLAT, s.2 ++ [{
         symbol := symbol
         entry_date := ed
         exit_date := sig.date
         entry_price := ep
         exit_price := sig.price
         pnl := pnl
         pnl_pct := pnl / ep * 100
         holding_days := calendarDayDiff sig.date ed
         is_win := decide (pnl > 0) }])
  else s

/-- Fold of the spec's state machine over the date-sorted signal sequence,
starting FLAT with no trades; an open LONG left at the end is discarded. -/
def specRun (symbol : String) (signals : List Signal) : List Trade :=
  ((sortSignals signals).foldl (specStep symbol) (SpecPos.FLAT, [])).2

/-! Section: Demonstration inputs, taken from the spec's scenarios -/

/-- Signals `[BUY@100 on 2023-01-01, SELL@120 on 2023-01-15]`. -/
def demoSignals1 : List Signal :=
  [⟨"BUY", "2023-01-01", 100⟩, ⟨"SELL", "2023-01-15", 120⟩]

/-- The one trade the spec expects from `demoSignals1`. -/
def demoTrade1 : Trade :=
  ⟨"SYM", "2023-01-01", "2023-01-15", 100, 120, 20, 20, 14, true⟩

/-- Signals `[BUY@100, BUY@90, SELL@110]` on increasing dates. -/
def demoSignals2 : List Signal :=
  [⟨"BUY", "2023-01-01", 100⟩, ⟨"BUY", "2023-01-02", 90⟩,
   ⟨"SELL", "2023-01-03", 110⟩]

/-- The one trade the spec expects from `demoSignals2`: entry from the first
BUY, the second BUY ignored. -/
def demoTrade2 : Trade :=
  ⟨"SYM", "2023-01-01", "2023-01-03", 100, 110, 10, 10, 2, true⟩

/-! Section: Lemmas on the lexicographic comparator -/

lemma lexLeb_refl : ∀ as, lexLeb as as = true
  | [] => rfl
  | a :: as => by simp [lexLeb, lexLeb_refl as]

lemma lexLeb_total : ∀ as bs, (lexLeb as bs || lexLeb bs as) = true
  | [], bs => by simp [lexLeb]
  | a :: as, [] => by simp [lexLeb]
  | a :: as, b :: bs => by
    rcases Nat.lt_trichotomy a.toNat b.toNat with h | h | h
    · simp [lexLeb, h]
    · simpa [lexLeb, h] using lexLeb_total as bs
    · simp [lexLeb, h, Nat.lt_asymm h]

lemma lexLeb_trans : ∀ as bs cs, lexLeb as bs = true → lexLeb bs cs = true →
    lexLeb as cs = true
  | [], _, _ => by simp [lexLeb]
  | a :: as, [], cs => by simp [lexLeb]
  | a :: as, b :: bs, [] => by intro _ h2; simp [lexLeb] at h2
  | a :: as, b :: bs, c :: cs => by
    intro h1 h2
    rcases Nat.lt_trichotomy a.toNat b.toNat with hab | hab | hab <;>
      rcases Nat.lt_trichotomy b.toNat c.toNat with hbc | hbc | hbc
    · simp [lexLeb, Nat.lt_trans hab hbc]
    · simp [lexLeb, hbc ▸ hab]
    · simp [lexLeb, hbc, Nat.lt_asymm hbc] at h2
    · simp [lexLeb, hab ▸ hbc]
    · have hac : a.toNat = c.toNat := hab.trans hbc
      simp only [lexLeb, hab, hbc, lt_self_iff_false, if_false] at h1 h2
      simp [lexLeb, hac, lexLeb_trans as bs cs h1 h2]
    · simp [lexLeb, hbc, Nat.lt_asymm hbc] at h2
    · simp [lexLeb, hab, Nat.lt_asymm hab] at h1
    · simp [lexLeb, hab, Nat.lt_asymm hab] at h1
    · simp [lexLeb, hab, Nat.lt_asymm hab] at h1

lemma signalLeb_trans (a b c : Signal) (h1 : signalLeb a b = true)
    (h2 : signalLeb b c = true) : signalLeb a c = true :=
  lexLeb_trans _ _ _ h1 h2

lemma signalLeb_total (a b : Signal) : (signalLeb a b || signalLeb b a) = true :=
  lexLeb_total _ _

lemma sortSignals_sorted (l : List Signal) :
    (sortSignals l).Pairwise (fun a b => signalLeb a b = true) :=
  List.sorted_mergeSort signalLeb_trans signalLeb_total l

lemma sortSignals_idem (l : List Signal) :
    sortSignals (sortSignals l) = sortSignals l :=
  List.mergeSort_of_sorted (sortSignals_sorted l)

/-! Section: Refinement of the spec's state machine by the loop of
`_backtest_stock` -/

/-- Correspondence between the loop variables of `_backtest_stock` and the
spec's FLAT/LONG position: FLAT is `position = None`; LONG records the entry
price and a parseable entry date in the loop variables. -/
def StateRel (st : LoopState) (pos : SpecPos) : Prop :=
  (st.position = none ∧ pos = SpecPos.FLAT) ∨
  (∃ ep ed, st.position = some "LONG" ∧ st.entry_price = ep ∧
    st.entry_date = some ed ∧ (parseDate ed).isSome ∧ pos = SpecPos.LONG ep ed)

lemma stepSignal_agrees (symbol : String) (st : LoopState) (pos : SpecPos)
    (sig : Signal) (hrel : StateRel st pos)
    (hd : (parseDate sig.date).isSome) :
    ∃ st', stepSignal symbol st sig = some st' ∧
      StateRel st' (specStep symbol (pos, st.trades) sig).1 ∧
      LoopState.trades st' = (specStep symbol (pos, st.trades) sig).2 := by
  by_cases hbuy : sig.type = "BUY"
  · rcases hrel with ⟨hpos, hfl⟩ | ⟨ep, ed, hpos, hep, hed, hp, hl⟩
    · -- BUY while FLAT: open the position
      refine ⟨LoopState.mk st.trades (some "LONG") sig.price (some sig.date),
        by simp [stepSignal, hbuy, hpos], ?_, ?_⟩
      · subst hfl
        exact Or.inr ⟨sig.price, sig.date, rfl, rfl, rfl, hd, by simp [specStep, hbuy]⟩
      · simp [specStep, hbuy, hfl]
    · -- BUY while LONG: no-op
      refine ⟨st, by simp [stepSignal, hbuy, hpos], ?_, ?_⟩
      · subst hl
        exact Or.inr ⟨ep, ed, hpos, hep, hed, hp, by simp [specStep, hbuy]⟩
      · subst hl; simp [specStep, hbuy]
  · by_cases hsell : sig.type = "SELL"
    · rcases hrel with ⟨hpos, hfl⟩ | ⟨ep, ed, hpos, hep, hed, hp, hl⟩
      · -- SELL while FLAT: no-op
        refine ⟨st, by simp [stepSignal, hbuy, hsell, hpos], ?_, ?_⟩
        · subst hfl
          exact Or.inl ⟨hpos, by simp [specStep, hbuy, hsell]⟩
        · subst hfl; simp [specStep, hbuy, hsell]
      · -- SELL while LONG: close the position and emit one trade
        obtain ⟨exitD, hexit⟩ := Option.isSome_iff_exists.mp hd
        obtain ⟨entryD, hentry⟩ := Option.isSome_iff_exists.mp hp
        refine ⟨LoopState.mk (st.trades ++
            [Trade.mk symbol ed sig.date st.entry_price sig.price
              (sig.price - st.entry_price)
              ((sig.price - st.entry_price) / st.entry_price * 100)
              ((Date.toDays exitD : ℤ) - (Date.toDays entryD : ℤ))
              (decide (sig.price - st.entry_price > 0))]) none 0 none,
          by simp [stepSignal, hbuy, hsell, hpos, hed, hexit, hentry], ?_, ?_⟩
        · subst hl
          exact Or.inl ⟨rfl, by simp [specStep, hbuy, hsell]⟩
        · subst hl
          simp only [specStep, hbuy, if_false, hsell, if_true]
          simp [calendarDayDiff, hexit, hentry, hep]
    · -- a signal that is neither BUY nor SELL: no-op on both sides
      refine ⟨st, by simp [stepSignal, hbuy, hsell], ?_, ?_⟩
      · simpa [specStep, hbuy, hsell] using hrel
      · simp [specStep, hbuy, hsell]

lemma foldlM_agrees (symbol : String) (l : List Signal) :
    ∀ (st : LoopState) (pos : SpecPos), StateRel st pos →
      (∀ s ∈ l, (parseDate s.date).isSome) →
      ∃ st', l.foldlM (stepSignal symbol) st = some st' ∧
        StateRel st' (l.foldl (specStep symbol) (pos, st.trades)).1 ∧
        LoopState.trades st' = (l.foldl (specStep symbol) (pos, st.trades)).2 := by
  induction l with
  | nil =>
    intro st pos hrel _
    exact ⟨st, by simp, by simpa using hrel, by simp⟩
  | cons sig l ih =>
    intro st pos hrel hall
    obtain ⟨st1, hstep, hrel1, htr1⟩ :=
      stepSignal_agrees symbol st pos sig hrel (hall sig (by simp))
    obtain ⟨st', hfold, hrel', htr'⟩ :=
      ih st1 (specStep symbol (pos, st.trades) sig).1 hrel1
        (fun s hs => hall s (by simp [hs]))
    have hpair : ((specStep symbol (pos, st.trades) sig).1, LoopState.trades st1) =
        specStep symbol (pos, st.trades) sig := by
      rw [htr1]
    refine ⟨st', ?_, ?_, ?_⟩
    · rw [List.foldlM_cons, hstep]
      simpa using hfold
    · rw [List.foldl_cons, ← hpair]
      exact hrel'
    · rw [List.foldl_cons, ← hpair]
      exact htr'

/-! Section: Claim theorems -/

/-- Claim C1: For every signal sequence for one symbol (dates being calendar
dates, i.e. parseable), the Trade Simulator's output equals the fold of the
FLAT/LONG state machine over the date-sorted sequence: a BUY while FLAT opens
a LONG and emits no trade, a SELL while LONG emits exactly one Trade with the
claimed fields and returns to FLAT, the other state/signal pairs change
nothing, and an open LONG after the last signal produces no trade.  In
particular `[BUY@100 on 2023-01-01, SELL@120 on 2023-01-15]` yields exactly
one Trade with `pnl = 20`, `pnl_pct = 20`, `holding_days = 14`,
`is_win = true`, and `[BUY@100, BUY@90, SELL@110]` on increasing dates yields
exactly one Trade with `entry_price = 100` and `exit_price = 110`. -/
theorem simulator_output_eq_state_machine_fold :
    (∀ (symbol : String) (signals : List Signal),
        (∀ s ∈ signals, (parseDate s.date).isSome) →
        simulatorTrades symbol signals = some (specRun symbol signals)) ∧
    simulatorTrades "SYM" demoSignals1 = some [demoTrade1] ∧
    simulatorTrades "SYM" demoSignals2 = some [demoTrade2] := by
  refine ⟨?_, ?_, ?_⟩
  · intro symbol signals h
    obtain ⟨st', hfold, _, htr⟩ :=
      foldlM_agrees symbol (sortSignals signals) initState SpecPos.FLAT
        (Or.inl ⟨rfl, rfl⟩) (fun s hs => h s (List.mem_mergeSort.mp hs))
    unfold simulatorTrades specRun
    rw [hfold]
    simpa [initState] using htr
  · have hs : sortSignals demoSignals1 = demoSignals1 :=
      List.mergeSort_of_sorted (by decide)
    simp only [simulatorTrades, hs]
    simp [demoSignals1, demoTrade1, stepSignal, initState,
      List.foldlM_cons, List.foldlM_nil,
      (by decide : parseDate "2023-01-01" = some ⟨2023, 1, 1⟩),
      (by decide : parseDate "2023-01-15" = some ⟨2023, 1, 15⟩)]
    norm_num [Date.toDays]
  · have hs : sortSignals demoSignals2 = demoSignals2 :=
      List.mergeSort_of_sorted (by decide)
    simp only [simulatorTrades, hs]
    simp [demoSignals2, demoTrade2, stepSignal, initState,
      List.foldlM_cons, List.foldlM_nil,
      (by decide : parseDate "2023-01-01" = some ⟨2023, 1, 1⟩),
      (by decide : parseDate "2023-01-03" = some ⟨2023, 1, 3⟩)]
    norm_num [Date.toDays]

/-- Witness for C1: the universal part applied at the concrete first
scenario, its hypothesis discharged by evaluation. -/
theorem simulator_output_eq_state_machine_fold_witness :
    simulatorTrades "SYM" demoSignals1 = some (specRun "SYM" demoSignals1) :=
  simulator_output_eq_state_machine_fold.1 "SYM" demoSignals1 (by decide)

/-- Claim C2: Running the simulator on any signal sequence yields the same
result as running it on the stably date-sorted version of that sequence
(the simulator itself sorts first, and sorting is idempotent); moreover the
sort is stable: same-date signals appear in the sorted sequence in their
original input order. -/
theorem backtest_insensitive_to_presorting :
    (∀ (symbol : String) (signals : List Signal),
        _backtest_stock symbol signals =
          _backtest_stock symbol (sortSignals signals)) ∧
    (∀ (signals : List Signal) (d : String),
        (sortSignals signals).filter (fun s => s.date == d) =
          signals.filter (fun s => s.date == d)) := by
  constructor
  · intro symbol signals
    unfold _backtest_stock
    rw [sortSignals_idem]
  · intro signals d
    have hall : ∀ s ∈ signals.filter (fun s => s.date == d),
        ∀ t ∈ signals.filter (fun s => s.date == d), signalLeb s t = true := by
      intro s hs t ht
      have hs' : s.date = d := by simpa using (List.mem_filter.mp hs).2
      have ht' : t.date = d := by simpa using (List.mem_filter.mp ht).2
      simp [signalLeb, dateLeb, hs', ht', lexLeb_refl]
    have hsub : (signals.filter (fun s => s.date == d)).Sublist (sortSignals signals) :=
      List.sublist_mergeSort signalLeb_trans signalLeb_total
        (List.pairwise_of_forall_mem_list hall) (List.filter_sublist _)
    have hfil : (signals.filter (fun s => s.date == d)).filter (fun s => s.date == d) =
        signals.filter (fun s => s.date == d) :=
      List.filter_eq_self.mpr (fun a ha => (List.mem_filter.mp ha).2)
    have hsub2 : (signals.filter (fun s => s.date == d)).Sublist
        ((sortSignals signals).filter (fun s => s.date == d)) := by
      have h2 := hsub.filter (fun s => s.date == d)
      rwa [hfil] at h2
    have hperm : ((sortSignals signals).filter (fun s => s.date == d)).Perm
        (signals.filter (fun s => s.date == d)) :=
      (List.mergeSort_perm signals signalLeb).filter _
    exact (hsub2.eq_of_length hperm.length_eq.symm).symm

/-! Section: Prefix sums (claim C3) -/

/-- Running prefix sums of trade P&L starting from accumulator `c`; the
reference shape of the `cumulative_returns` loop of lines 112-116. -/
def specScan (c : ℚ) : List Trade → List ℚ
  | [] => []
  | t :: ts => (c + t.pnl) :: specScan (c + t.pnl) ts

lemma foldl_cum_eq : ∀ (ts : List Trade) (c : ℚ) (acc : List ℚ),
    (ts.foldl (fun a t => (a.1 + t.pnl, a.2 ++ [a.1 + t.pnl])) (c, acc)).2 =
      acc ++ specScan c ts
  | [], c, acc => by simp [specScan]
  | t :: ts, c, acc => by
    simp only [List.foldl_cons, specScan]
    rw [foldl_cum_eq ts (c + t.pnl) (acc ++ [c + t.pnl])]
    simp

lemma specScan_length : ∀ (c : ℚ) (ts : List Trade),
    (specScan c ts).length = ts.length
  | _, [] => rfl
  | c, t :: ts => by simp [specScan, specScan_length]

lemma specScan_getElem : ∀ (ts : List Trade) (c : ℚ) (k : Nat)
    (hk : k < (specScan c ts).length),
    (specScan c ts)[k] = c + ((ts.take (k + 1)).map Trade.pnl).sum
  | [], c, k, hk => by simp [specScan] at hk
  | t :: ts, c, 0, hk => by simp [specScan]
  | t :: ts, c, k + 1, hk => by
    have hk' : k < (specScan (c + t.pnl) ts).length := by
      simpa [specScan] using hk
    calc (specScan c (t :: ts))[k + 1]
        = (specScan (c + t.pnl) ts)[k] := by simp [specScan]
      _ = c + t.pnl + ((ts.take (k + 1)).map Trade.pnl).sum :=
          specScan_getElem ts (c + t.pnl) k hk'
      _ = c + (((t :: ts).take (k + 2)).map Trade.pnl).sum := by
          simp [List.take_succ_cons]
          ring

lemma specScan_getLast? : ∀ (ts : List Trade) (c : ℚ), ts ≠ [] →
    (specScan c ts).getLast? = some (c + (ts.map Trade.pnl).sum)
  | [], _, h => absurd rfl h
  | [t], c, _ => by simp [specScan]
  | t :: t' :: ts, c, _ => by
    calc (specScan c (t :: t' :: ts)).getLast?
        = ((c + t.pnl) :: (c + t.pnl + t'.pnl) ::
            specScan (c + t.pnl + t'.pnl) ts).getLast? := rfl
      _ = ((c + t.pnl + t'.pnl) :: specScan (c + t.pnl + t'.pnl) ts).getLast? :=
          List.getLast?_cons_cons
      _ = (specScan (c + t.pnl) (t' :: ts)).getLast? := rfl
      _ = some (c + t.pnl + ((t' :: ts).map Trade.pnl).sum) :=
          specScan_getLast? (t' :: ts) (c + t.pnl) (by simp)
      _ = some (c + ((t :: t' :: ts).map Trade.pnl).sum) := by
          simp
          ring

lemma metrics_cumulative (trades : List Trade) :
    (_calculate_performance_metrics trades).cumulative_returns =
      specScan 0 trades := by
  simp [_calculate_performance_metrics, foldl_cum_eq]

/-- Claim C3: For every non-empty trade sequence, `cumulative_returns` has one
element per trade, its `k`-th entry is the sum of the first `k + 1` trades'
P&L (running prefix sum in trade order), and its final entry equals
`total_pnl` exactly. -/
theorem cumulative_returns_prefix_sums (trades : List Trade) (h : trades ≠ []) :
    (_calculate_performance_metrics trades).cumulative_returns.length =
      trades.length ∧
    (∀ (k : Nat)
        (hk : k < (_calculate_performance_metrics trades).cumulative_returns.length),
        (_calculate_performance_metrics trades).cumulative_returns.get ⟨k, hk⟩ =
          ((trades.take (k + 1)).map Trade.pnl).sum) ∧
    (_calculate_performance_metrics trades).cumulative_returns.getLast? =
      some ((_calculate_performance_metrics trades).total_pnl) := by
  have hc := metrics_cumulative trades
  refine ⟨by rw [hc]; exact specScan_length 0 trades, ?_, ?_⟩
  · intro k hk
    have hk' : k < (specScan 0 trades).length := by rw [← hc]; exact hk
    have hg : (specScan 0 trades)[k] =
        0 + ((trades.take (k + 1)).map Trade.pnl).sum :=
      specScan_getElem trades 0 k hk'
    simp only [List.get_eq_getElem, hc]
    rw [hg, zero_add]
  · rw [hc, specScan_getLast? trades 0 h]
    simp [_calculate_performance_metrics]

/-- Witness for C3 at a concrete two-trade list. -/
def wtrade1 : Trade := ⟨"W", "2023-01-01", "2023-01-05", 100, 110, 10, 10, 4, true⟩

/-- Second concrete trade used by witnesses: a loss. -/
def wtrade2 : Trade := ⟨"W", "2023-02-01", "2023-02-03", 50, 45, -5, -10, 2, false⟩

/-- Concrete two-trade list used by witnesses. -/
def demoTrades : List Trade := [wtrade1, wtrade2]

/-- Witness for C3: the final cumulative return of the concrete trade list
equals its total P&L. -/
theorem cumulative_returns_prefix_sums_witness :
    (_calculate_performance_metrics demoTrades).cumulative_returns.getLast? =
      some ((_calculate_performance_metrics demoTrades).total_pnl) :=
  (cumulative_returns_prefix_sums demoTrades (by simp [demoTrades])).2.2

/-- Claim C4: For every SymbolResult from a non-empty trade list whose `is_win`
flags agree with `pnl > 0` (as every simulator-produced trade does),
`winning_trades + losing_trades = total_trades`, `win_rate` is exactly
`winning_trades / total_trades * 100`, winning trades are exactly those with
`pnl > 0`, and losing trades are those with `pnl ≤ 0` (so a zero-P&L trade
counts as losing). -/
theorem win_loss_partition_and_rate (trades : List Trade) (h : trades ≠ [])
    (hw : ∀ t ∈ trades, t.is_win = decide (t.pnl > 0)) :
    (_calculate_performance_metrics trades).winning_trades +
        (_calculate_performance_metrics trades).losing_trades =
      (_calculate_performance_metrics trades).total_trades ∧
    (_calculate_performance_metrics trades).win_rate =
      ((_calculate_performance_metrics trades).winning_trades : ℚ) /
        ((_calculate_performance_metrics trades).total_trades : ℚ) * 100 ∧
    (_calculate_performance_metrics trades).winning_trades =
      (trades.filter (fun t => decide (t.pnl > 0))).length ∧
    (_calculate_performance_metrics trades).losing_trades =
      (trades.filter (fun t => decide (¬ t.pnl > 0))).length := by
  have hpos : 0 < trades.length := List.length_pos.mpr h
  have hle : (trades.filter (fun t => t.is_win)).length ≤ trades.length :=
    List.length_filter_le _ _
  have hwin : (trades.filter (fun t => t.is_win)).length =
      (trades.filter (fun t => decide (t.pnl > 0))).length :=
    congrArg List.length (List.filter_congr hw)
  refine ⟨?_, ?_, ?_, ?_⟩
  · simp only [_calculate_performance_metrics]
    omega
  · simp [_calculate_performance_metrics, hpos]
  · simp only [_calculate_performance_metrics]
    exact hwin
  · have hnot : trades.filter (fun t => decide (¬ t.pnl > 0)) =
        trades.filter (fun t => !(decide (t.pnl > 0))) :=
      List.filter_congr (fun t _ => by simp only [decide_not])
    have hlen := (List.filter_append_perm (fun t => decide (t.pnl > 0)) trades).length_eq
    simp only [List.length_append] at hlen
    simp only [_calculate_performance_metrics]
    rw [hnot]
    omega

/-- Witness for C4 at the concrete two-trade list. -/
theorem win_loss_partition_and_rate_witness :
    (_calculate_performance_metrics demoTrades).winning_trades +
        (_calculate_performance_metrics demoTrades).losing_trades =
      (_calculate_performance_metrics demoTrades).total_trades :=
  (win_loss_partition_and_rate demoTrades (by simp [demoTrades])
    (by
      intro t ht
      simp only [demoTrades, List.mem_cons, List.not_mem_nil, or_false] at ht
      rcases ht with h1 | h1 <;> subst h1 <;> simp [wtrade1, wtrade2])).1

/-! Section: Portfolio-level claims -/

lemma metrics_trades (trades : List Trade) :
    (_calculate_performance_metrics trades).trades = trades := rfl

/-- Claim C5: The Portfolio Aggregator flattens all trades across symbols into
one pooled population and computes total_trades, winning_trades, win_rate,
total_pnl, total_pnl_pct and avg_pnl_per_trade over that pooled population
(trade-weighted, not averaged per symbol), and symbols_traded counts the
symbols of the mapping, each of which contributed at least one trade. -/
theorem portfolio_pools_all_trades (results : List (String × SymbolResult))
    (hne : results ≠ [])
    (htr : results.flatMap (fun q => q.2.trades) ≠ []) :
    ∃ p, get_portfolio_summary results = some p ∧
      p.total_trades = (results.flatMap (fun q => q.2.trades)).length ∧
      p.winning_trades =
        ((results.flatMap (fun q => q.2.trades)).filter (fun t => t.is_win)).length ∧
      p.total_pnl = ((results.flatMap (fun q => q.2.trades)).map Trade.pnl).sum ∧
      p.total_pnl_pct =
        ((results.flatMap (fun q => q.2.trades)).map Trade.pnl_pct).sum ∧
      p.win_rate = (p.winning_trades : ℚ) / (p.total_trades : ℚ) * 100 ∧
      p.avg_pnl_per_trade = p.total_pnl / (p.total_trades : ℚ) ∧
      p.symbols_traded = results.length ∧
      ((∀ r ∈ results, r.2.trades ≠ []) →
        p.symbols_traded = (results.filter (fun r => !r.2.trades.isEmpty)).length) := by
  have h1 : results.isEmpty = false := by simpa [List.isEmpty_iff] using hne
  have h2 : (results.flatMap (fun q => q.2.trades)).isEmpty = false := by
    simpa [List.isEmpty_iff] using htr
  have hpos : 0 < (results.flatMap (fun q => q.2.trades)).length :=
    List.length_pos.mpr htr
  simp only [get_portfolio_summary, h1, h2, Bool.false_eq_true, if_false]
  refine ⟨_, rfl, rfl, rfl, rfl, rfl, ?_, ?_, rfl, ?_⟩
  · rw [if_pos hpos]
  · dsimp only
    rw [if_pos hpos]
  · intro hall
    have : results.filter (fun r => !r.2.trades.isEmpty) = results :=
      List.filter_eq_self.mpr (fun a ha => by
        simpa [List.isEmpty_iff] using hall a ha)
    simp [this]

/-- Witness for C5: the spec's scenario, a symbol netting +50 over two trades
pooled with a symbol netting -10 over three trades. -/
def scenarioTradeA1 : Trade := ⟨"A", "2023-01-01", "2023-01-02", 100, 160, 60, 60, 1, true⟩

/-- Second trade of the +50 symbol: a 10 loss. -/
def scenarioTradeA2 : Trade := ⟨"A", "2023-01-03", "2023-01-04", 100, 90, -10, -10, 1, false⟩

/-- First trade of the -10 symbol: a 5 win. -/
def scenarioTradeB1 : Trade := ⟨"B", "2023-01-01", "2023-01-02", 100, 105, 5, 5, 1, true⟩

/-- Second trade of the -10 symbol: a 10 loss. -/
def scenarioTradeB2 : Trade := ⟨"B", "2023-01-03", "2023-01-04", 100, 90, -10, -10, 1, false⟩

/-- Third trade of the -10 symbol: a 5 loss. -/
def scenarioTradeB3 : Trade := ⟨"B", "2023-01-05", "2023-01-06", 100, 95, -5, -5, 1, false⟩

/-- The two-symbol mapping of the C5 scenario. -/
def scenarioResults : List (String × SymbolResult) :=
  [("A", _calculate_performance_metrics [scenarioTradeA1, scenarioTradeA2]),
   ("B", _calculate_performance_metrics [scenarioTradeB1, scenarioTradeB2, scenarioTradeB3])]

/-- Witness for C5: on the scenario mapping the pooled summary has
`total_pnl = 40`, `total_trades = 5` and `win_rate = 40` (2 wins of the
pooled 5 trades), not an average of per-symbol figures. -/
theorem portfolio_pools_all_trades_witness :
    ∃ p, get_portfolio_summary scenarioResults = some p ∧
      p.total_pnl = 40 ∧ p.total_trades = 5 ∧ p.win_rate = 40 := by
  obtain ⟨p, hp, htot, hwin, hpnl, _, hrate, _, _, _⟩ :=
    portfolio_pools_all_trades scenarioResults (by simp [scenarioResults])
      (by simp [scenarioResults, metrics_trades])
  refine ⟨p, hp, ?_, ?_, ?_⟩
  · rw [hpnl]
    simp [scenarioResults, metrics_trades, scenarioTradeA1, scenarioTradeA2,
      scenarioTradeB1, scenarioTradeB2, scenarioTradeB3]
    norm_num
  · rw [htot]
    simp [scenarioResults, metrics_trades]
  · rw [hrate, hwin, htot]
    have hfil : (scenarioResults.flatMap (fun q => q.2.trades)).filter
        (fun t => t.is_win) = [scenarioTradeA1, scenarioTradeB1] := by
      simp [scenarioResults, metrics_trades, scenarioTradeA1, scenarioTradeA2,
        scenarioTradeB1, scenarioTradeB2, scenarioTradeB3]
    rw [hfil]
    simp [scenarioResults, metrics_trades]
    norm_num

lemma backtest_empty_none (symbol : String) : _backtest_stock symbol [] = none := by
  unfold _backtest_stock backtestSorted sortSignals
  simp [initState]

lemma backtest_some_trades_ne (symbol : String) (signals : List Signal)
    (r : SymbolResult) (h : _backtest_stock symbol signals = some r) :
    r.trades ≠ [] := by
  unfold _backtest_stock backtestSorted at h
  split at h
  · cases h
  · rename_i st hfold
    split at h
    · cases h
    · rename_i he
      injection h with h'
      rw [← h', metrics_trades]
      simpa [List.isEmpty_iff] using he

lemma runStep_trades (signals_data : List (String × List Signal))
    (acc : List (String × SymbolResult)) (p : String × Bool)
    (hacc : ∀ x ∈ acc, x.2.trades ≠ []) :
    ∀ x ∈ runStep signals_data acc p, x.2.trades ≠ [] := by
  intro x hx
  unfold runStep at hx
  split at hx
  · exact hacc x hx
  · rename_i sigs hl
    split at hx
    · split at hx
      · rename_i result hb
        rcases List.mem_append.mp hx with hxa | hxs
        · exact hacc x hxa
        · have hx1 : x = (p.1, result) := by simpa using hxs
          rw [hx1]
          exact backtest_some_trades_ne p.1 sigs result hb
      · exact hacc x hx
    · exact hacc x hx

lemma foldl_runStep_trades (signals_data : List (String × List Signal)) :
    ∀ (ind : List (String × Bool)) (acc : List (String × SymbolResult)),
      (∀ x ∈ acc, x.2.trades ≠ []) →
      ∀ x ∈ ind.foldl (runStep signals_data) acc, x.2.trades ≠ []
  | [], acc, hacc => by simpa using hacc
  | p :: ind, acc, hacc => by
    rw [List.foldl_cons]
    exact foldl_runStep_trades signals_data ind (runStep signals_data acc p)
      (runStep_trades signals_data acc p hacc)

/-- Claim C6: An empty trade list is an explicit absent result, not an error:
a simulation whose loop completes with no trades returns `none`; an empty
signal list returns `none`; the portfolio summary is `none` for an empty
mapping and for a mapping none of whose symbols has a trade; and every entry
of a `run_backtest` mapping carries at least one trade, so trade-less symbols
are excluded from the mapping and hence from `symbols_traded`. -/
theorem empty_trades_yield_absent_results :
    (∀ (symbol : String) (signals : List Signal) (st : LoopState),
        (sortSignals signals).foldlM (stepSignal symbol) initState = some st →
        st.trades = [] → _backtest_stock symbol signals = none) ∧
    (∀ symbol : String, _backtest_stock symbol [] = none) ∧
    get_portfolio_summary [] = none ∧
    (∀ results : List (String × SymbolResult),
        results.flatMap (fun q => q.2.trades) = [] →
        get_portfolio_summary results = none) ∧
    (∀ (indicators_data : List (String × Bool))
        (signals_data : List (String × List Signal)) (symbol : String)
        (r : SymbolResult),
        (symbol, r) ∈ run_backtest indicators_data signals_data →
        r.trades ≠ []) := by
  refine ⟨?_, ?_, ?_, ?_, ?_⟩
  · intro symbol signals st hfold htr
    unfold _backtest_stock backtestSorted
    rw [hfold]
    simp [htr]
  · intro symbol
    exact backtest_empty_none symbol
  · simp [get_portfolio_summary]
  · intro results hflat
    simp [get_portfolio_summary, hflat]
  · intro indicators_data signals_data symbol r hmem
    exact foldl_runStep_trades signals_data indicators_data []
      (by simp) (symbol, r) hmem

/-- Witness record for C6: a handmade symbol result with an empty trade
list. -/
def emptyTradesResult : SymbolResult :=
  ⟨0, 0, 0, 0, 0, 0, 0, 0, 0, 0, 0, [], []⟩

/-- Witness for C6: the portfolio summary of a mapping whose only symbol has
no trades is the absent value. -/
theorem empty_trades_yield_absent_results_witness :
    get_portfolio_summary [("AAA", emptyTradesResult)] = none :=
  empty_trades_yield_absent_results.2.2.2.1 [("AAA", emptyTradesResult)]
    (by simp [emptyTradesResult])

/-! Section: The Sharpe-like ratio and the mean P&L per trade (claims C7, C8) -/

lemma npStd_nonneg (xs : List ℚ) : 0 ≤ npStd xs := Real.sqrt_nonneg _

lemma npVariance_singleton (x : ℚ) : npVariance [x] = 0 := by
  simp [npVariance, npMean]

/-- Counterexample for C7: the symbol-level result dict (lines 118-132) has
no `sharpe_ratio` key; only the portfolio summary (lines 159-168) carries
one, so at the symbol level the result carries no Sharpe-like ratio. -/
theorem symbol_result_lacks_sharpe :
    ¬ ("sharpe_ratio" ∈ symbolResultFields) ∧
      "sharpe_ratio" ∈ portfolioSummaryFields := by decide

/-- Claim C7, amended: Only the portfolio-level result carries the Sharpe-like
ratio.  For every pooled trade population it equals
mean(pnl_pct) / stdev(pnl_pct) (with division by a zero deviation resolving
to the code's 0 fallback), and it is 0 whenever the standard deviation is 0
or the population has fewer than 2 trades; as a real number it is never NaN
or undefined. -/
theorem sharpe_ratio_portfolio_level (results : List (String × SymbolResult))
    (hne : results ≠ [])
    (htr : results.flatMap (fun q => q.2.trades) ≠ []) :
    ∃ p, get_portfolio_summary results = some p ∧
      PortfolioResult.sharpe_ratio p =
        (npMean ((results.flatMap (fun q => q.2.trades)).map Trade.pnl_pct) : ℝ) /
          npStd ((results.flatMap (fun q => q.2.trades)).map Trade.pnl_pct) ∧
      ((npVariance ((results.flatMap (fun q => q.2.trades)).map Trade.pnl_pct) = 0 ∨
          (results.flatMap (fun q => q.2.trades)).length < 2) →
        PortfolioResult.sharpe_ratio p = 0) := by
  have h1 : results.isEmpty = false := by simpa [List.isEmpty_iff] using hne
  have h2 : (results.flatMap (fun q => q.2.trades)).isEmpty = false := by
    simpa [List.isEmpty_iff] using htr
  simp only [get_portfolio_summary, h1, h2, Bool.false_eq_true, if_false]
  refine ⟨_, rfl, ?_, ?_⟩
  · dsimp only
    by_cases hstd :
        0 < npStd ((results.flatMap (fun q => q.2.trades)).map Trade.pnl_pct)
    · rw [if_pos hstd]
    · rw [if_neg hstd]
      have h0 : npStd ((results.flatMap (fun q => q.2.trades)).map Trade.pnl_pct) = 0 :=
        le_antisymm (not_lt.mp hstd) (npStd_nonneg _)
      rw [h0, div_zero]
  · intro hz
    dsimp only
    have hstd0 : npStd ((results.flatMap (fun q => q.2.trades)).map Trade.pnl_pct) = 0 := by
      rcases hz with hv | hlen
      · unfold npStd
        rw [hv]
        simp
      · have hlen1 : (results.flatMap (fun q => q.2.trades)).length = 1 := by
          have hp := List.length_pos.mpr htr
          omega
        obtain ⟨t, ht⟩ := List.length_eq_one.mp hlen1
        unfold npStd
        rw [ht]
        simp [npVariance_singleton]
    simp [hstd0]

/-- Single-symbol single-trade mapping used by the C7/C8 witnesses. -/
def demoResults1 : List (String × SymbolResult) :=
  [("W", _calculate_performance_metrics [wtrade1])]

/-- Witness for C7: on a one-trade population (zero deviation, fewer than two
trades) the portfolio Sharpe-like ratio is 0. -/
theorem sharpe_ratio_portfolio_level_witness :
    ∃ p, get_portfolio_summary demoResults1 = some p ∧
      PortfolioResult.sharpe_ratio p = 0 := by
  obtain ⟨p, hp, _, hzero⟩ :=
    sharpe_ratio_portfolio_level demoResults1 (by simp [demoResults1])
      (by simp [demoResults1, metrics_trades])
  exact ⟨p, hp, hzero (Or.inr (by simp [demoResults1, metrics_trades]))⟩

/-- Counterexample for C8: the symbol-level result dict (lines 118-132) has
no `avg_pnl_per_trade` key; only the portfolio summary (lines 159-168)
carries one. -/
theorem symbol_result_lacks_avg_pnl_per_trade :
    ¬ ("avg_pnl_per_trade" ∈ symbolResultFields) ∧
      "avg_pnl_per_trade" ∈ portfolioSummaryFields := by decide

/-- Claim C8, amended: The symbol-level result carries no `avg_pnl_per_trade`
field; the mean P&L per trade appears only in the portfolio summary, where
`avg_pnl_per_trade` equals `total_pnl / total_trades` exactly. -/
theorem avg_pnl_per_trade_portfolio_only (results : List (String × SymbolResult))
    (hne : results ≠ [])
    (htr : results.flatMap (fun q => q.2.trades) ≠ []) :
    ¬ ("avg_pnl_per_trade" ∈ symbolResultFields) ∧
    ∃ p, get_portfolio_summary results = some p ∧
      p.avg_pnl_per_trade = p.total_pnl / (p.total_trades : ℚ) := by
  have h1 : results.isEmpty = false := by simpa [List.isEmpty_iff] using hne
  have h2 : (results.flatMap (fun q => q.2.trades)).isEmpty = false := by
    simpa [List.isEmpty_iff] using htr
  have hpos : 0 < (results.flatMap (fun q => q.2.trades)).length :=
    List.length_pos.mpr htr
  refine ⟨by decide, ?_⟩
  simp only [get_portfolio_summary, h1, h2, Bool.false_eq_true, if_false]
  refine ⟨_, rfl, ?_⟩
  dsimp only
  rw [if_pos hpos]

/-- Witness for C8: the amended claim at the concrete one-trade mapping. -/
theorem avg_pnl_per_trade_portfolio_only_witness :
    ¬ ("avg_pnl_per_trade" ∈ symbolResultFields) ∧
    ∃ p, get_portfolio_summary demoResults1 = some p ∧
      p.avg_pnl_per_trade = p.total_pnl / (p.total_trades : ℚ) :=
  avg_pnl_per_trade_portfolio_only demoResults1 (by simp [demoResults1])
    (by simp [demoResults1, metrics_trades])

/-! Section: Malformed input and failure isolation (claims C9, C10) -/

/-- Signal list whose SELL has an unparseable date: processing it raises
`ValueError` inside `datetime.strptime` after a position has been opened. -/
def badSignals : List Signal :=
  [⟨"BUY", "2023-01-01", 100⟩, ⟨"SELL", "garbage", 120⟩]

lemma backtest_bad_none : _backtest_stock "AAA" badSignals = none := by
  have hs : sortSignals badSignals = badSignals :=
    List.mergeSort_of_sorted (by decide)
  unfold _backtest_stock backtestSorted
  rw [hs]
  simp [badSignals, stepSignal, initState, List.foldlM_cons, List.foldlM_nil,
    (by decide : parseDate "garbage" = (none : Option Date))]

/-- Counterexample for C9: on malformed signal data (unparseable SELL date)
`_backtest_stock` returns the plain absent value `none` — exactly the value
it returns for an empty signal list — so the input-validation failure is only
logged inside the `except` handler, not reported to the caller as an error
value. -/
theorem malformed_input_yields_plain_none :
    _backtest_stock "AAA" badSignals = none ∧
      _backtest_stock "AAA" [] = none :=
  ⟨backtest_bad_none, backtest_empty_none "AAA"⟩

lemma runStep_not_mem_failing (signals_data : List (String × List Signal))
    (a : String) (sa : List Signal)
    (ha : signals_data.lookup a = some sa)
    (hfail : _backtest_stock a sa = none)
    (acc : List (String × SymbolResult)) (p : String × Bool)
    (hacc : ∀ r : SymbolResult, (a, r) ∉ acc) (r : SymbolResult) :
    (a, r) ∉ runStep signals_data acc p := by
  intro hmem
  unfold runStep at hmem
  split at hmem
  · exact hacc r hmem
  · rename_i sigs hl
    split at hmem
    · split at hmem
      · rename_i result hb
        rcases List.mem_append.mp hmem with hxa | hxs
        · exact hacc r hxa
        · have hpa : p.1 = a ∧ result = r := by
            have hx := List.mem_singleton.mp hxs
            exact ⟨(Prod.mk.injEq _ _ _ _ ▸ hx).1.symm, (Prod.mk.injEq _ _ _ _ ▸ hx).2.symm⟩
          rw [hpa.1] at hl
          rw [ha] at hl
          injection hl with hsig
          rw [hpa.1, ← hsig] at hb
          rw [hfail] at hb
          cases hb
      · exact hacc r hmem
    · exact hacc r hmem

lemma foldl_runStep_not_mem_failing (signals_data : List (String × List Signal))
    (a : String) (sa : List Signal)
    (ha : signals_data.lookup a = some sa)
    (hfail : _backtest_stock a sa = none) :
    ∀ (ind : List (String × Bool)) (acc : List (String × SymbolResult)),
      (∀ r : SymbolResult, (a, r) ∉ acc) →
      ∀ r : SymbolResult, (a, r) ∉ ind.foldl (runStep signals_data) acc
  | [], acc, hacc => by simpa using hacc
  | p :: ind, acc, hacc => by
    rw [List.foldl_cons]
    exact foldl_runStep_not_mem_failing signals_data a sa ha hfail ind
      (runStep signals_data acc p)
      (runStep_not_mem_failing signals_data a sa ha hfail acc p hacc)

lemma runStep_mem_mono (signals_data : List (String × List Signal))
    (acc : List (String × SymbolResult)) (p : String × Bool)
    (x : String × SymbolResult) (hx : x ∈ acc) :
    x ∈ runStep signals_data acc p := by
  unfold runStep
  split
  · exact hx
  · split
    · split
      · exact List.mem_append_left _ hx
      · exact hx
    · exact hx

lemma foldl_runStep_mem_mono (signals_data : List (String × List Signal)) :
    ∀ (ind : List (String × Bool)) (acc : List (String × SymbolResult))
      (x : String × SymbolResult), x ∈ acc →
      x ∈ ind.foldl (runStep signals_data) acc
  | [], _, _, hx => by simpa using hx
  | p :: ind, acc, x, hx => by
    rw [List.foldl_cons]
    exact foldl_runStep_mem_mono signals_data ind (runStep signals_data acc p) x
      (runStep_mem_mono signals_data acc p x hx)

lemma foldl_runStep_mem_ok (signals_data : List (String × List Signal))
    (b : String) (sb : List Signal) (rb : SymbolResult)
    (hlb : signals_data.lookup b = some sb)
    (hok : _backtest_stock b sb = some rb) :
    ∀ (ind : List (String × Bool)) (acc : List (String × SymbolResult)),
      (b, true) ∈ ind → (b, rb) ∈ ind.foldl (runStep signals_data) acc
  | [], _, hb => by simp at hb
  | p :: ind, acc, hb => by
    rw [List.foldl_cons]
    rcases List.mem_cons.mp hb with hb1 | hb2
    · apply foldl_runStep_mem_mono signals_data ind
      unfold runStep
      rw [← hb1]
      simp only [hlb, hok]
      exact List.mem_append_right _ (List.mem_singleton.mpr rfl)
    · exact foldl_runStep_mem_ok signals_data b sb rb hlb hok ind
        (runStep signals_data acc p) hb2

/-- Claim C9, amended: When one symbol's signal data is malformed, that
symbol's simulation fails and the symbol is skipped — it yields the absent
value, indistinguishable from "no trades"; the error is logged rather than
returned — while every other symbol's result is still produced: in every
batch, whatever its size and the failing symbol's position, the failing
symbol never appears in the result mapping, and every symbol whose
simulation succeeds appears with its result; the batch is not aborted. -/
theorem per_symbol_failure_isolation
    (indicators_data : List (String × Bool))
    (signals_data : List (String × List Signal))
    (a : String) (sa : List Signal)
    (ha : signals_data.lookup a = some sa)
    (hfail : _backtest_stock a sa = none) :
    (∀ r : SymbolResult,
        (a, r) ∉ run_backtest indicators_data signals_data) ∧
    (∀ (b : String) (sb : List Signal) (rb : SymbolResult),
        (b, true) ∈ indicators_data →
        signals_data.lookup b = some sb →
        _backtest_stock b sb = some rb →
        (b, rb) ∈ run_backtest indicators_data signals_data) := by
  constructor
  · exact foldl_runStep_not_mem_failing signals_data a sa ha hfail
      indicators_data [] (by simp)
  · intro b sb rb hbind hlb hok
    exact foldl_runStep_mem_ok signals_data b sb rb hlb hok
      indicators_data [] hbind

/-- The symbol result of the single `demoSignals1` trade, fully evaluated. -/
def demoResult1 : SymbolResult :=
  ⟨1, 1, 0, 100, 20, 20, 20, 0, 20, 20, 14, [20], [demoTrade1]⟩

lemma backtest_demo1 : _backtest_stock "SYM" demoSignals1 = some demoResult1 := by
  have hs : sortSignals demoSignals1 = demoSignals1 :=
    List.mergeSort_of_sorted (by decide)
  have hfold : demoSignals1.foldlM (stepSignal "SYM") initState =
      some ⟨[demoTrade1], none, 0, none⟩ := by
    simp [demoSignals1, demoTrade1, stepSignal, initState, List.foldlM_cons,
      List.foldlM_nil,
      (by decide : parseDate "2023-01-01" = some ⟨2023, 1, 1⟩),
      (by decide : parseDate "2023-01-15" = some ⟨2023, 1, 15⟩)]
    norm_num [Date.toDays]
  unfold _backtest_stock backtestSorted
  rw [hs, hfold]
  simp [_calculate_performance_metrics, demoTrade1, demoResult1, npMean,
    listMax, listMin]

/-- Witness for C9: a concrete three-symbol batch — a good symbol, the
malformed symbol, and a symbol without signals — where the malformed symbol
is skipped and the good symbol's result is produced. -/
theorem per_symbol_failure_isolation_witness :
    (∀ r : SymbolResult,
        ("AAA", r) ∉ run_backtest [("SYM", true), ("AAA", true), ("NOX", true)]
          [("AAA", badSignals), ("SYM", demoSignals1)]) ∧
    ("SYM", demoResult1) ∈ run_backtest [("SYM", true), ("AAA", true), ("NOX", true)]
      [("AAA", badSignals), ("SYM", demoSignals1)] := by
  obtain ⟨h1, h2⟩ :=
    per_symbol_failure_isolation [("SYM", true), ("AAA", true), ("NOX", true)]
      [("AAA", badSignals), ("SYM", demoSignals1)] "AAA" badSignals
      (by simp [List.lookup_cons]) backtest_bad_none
  exact ⟨h1, h2 "SYM" demoSignals1 demoResult1 (by simp)
    (by simp [List.lookup_cons]) backtest_demo1⟩

/-- A SELL signal whose date string `datetime.strptime` cannot parse. -/
def badSellSignal : Signal := ⟨"SELL", "bad-date", 110⟩

/-- Claim C10: The per-symbol simulation is all-or-nothing on failure: if the
sorted signal sequence ends in a SELL with an unparseable date reached while
LONG, the whole symbol's simulation returns the absent value, discarding
every trade already completed (which on the good prefix alone would have
produced a result), and that absent value is the very value the no-signals
case produces. -/
theorem simulation_failure_discards_whole_symbol
    (symbol : String) (signals good : List Signal) (bad : Signal)
    (st : LoopState)
    (hsort : sortSignals signals = good ++ [bad])
    (hfold : good.foldlM (stepSignal symbol) initState = some st)
    (hpos : st.position = some "LONG")
    (htrne : st.trades ≠ [])
    (hbadtype : bad.type = "SELL")
    (hbaddate : parseDate bad.date = none) :
    _backtest_stock symbol signals = none ∧
    backtestSorted symbol good = some (_calculate_performance_metrics st.trades) ∧
    _backtest_stock symbol signals = _backtest_stock symbol [] := by
  have hstep : stepSignal symbol st bad = none := by
    have hnb : ¬ (bad.type = "BUY" ∧ st.position = none) := by
      simp [hbadtype]
    unfold stepSignal
    rw [if_neg hnb, if_pos ⟨hbadtype, hpos⟩]
    cases hed : st.entry_date with
    | none => rfl
    | some ed =>
      rw [hbaddate]
  have hnone : _backtest_stock symbol signals = none := by
    unfold _backtest_stock backtestSorted
    rw [hsort, List.foldlM_append, hfold]
    simp [List.foldlM_cons, hstep]
  refine ⟨hnone, ?_, by rw [hnone, backtest_empty_none]⟩
  unfold backtestSorted
  rw [hfold]
  simp [List.isEmpty_iff, htrne]

/-- Four signals: a completed round trip, a reopened position, then a SELL
whose date cannot be parsed; the date strings are already in sorted order
(`'b' > '2'` in code points). -/
def demoSignals3 : List Signal :=
  [⟨"BUY", "2023-01-01", 100⟩, ⟨"SELL", "2023-01-15", 120⟩,
   ⟨"BUY", "2023-02-01", 100⟩, badSellSignal]

/-- The good prefix of `demoSignals3`. -/
def demoGood3 : List Signal :=
  [⟨"BUY", "2023-01-01", 100⟩, ⟨"SELL", "2023-01-15", 120⟩,
   ⟨"BUY", "2023-02-01", 100⟩]

/-- Loop state after the good prefix of `demoSignals3`: one completed trade
and a reopened LONG position. -/
def demoSt3 : LoopState := ⟨[demoTrade1], some "LONG", 100, some "2023-02-01"⟩

/-- Witness for C10: on the concrete four-signal input the completed first
trade is discarded and the whole symbol yields the absent value, though the
good prefix alone yields a result. -/
theorem simulation_failure_discards_whole_symbol_witness :
    _backtest_stock "SYM" demoSignals3 = none ∧
    backtestSorted "SYM" demoGood3 =
      some (_calculate_performance_metrics demoSt3.trades) ∧
    _backtest_stock "SYM" demoSignals3 = _backtest_stock "SYM" [] := by
  have hfold : demoGood3.foldlM (stepSignal "SYM") initState = some demoSt3 := by
    simp [demoGood3, demoSt3, demoTrade1, stepSignal, initState,
      List.foldlM_cons, List.foldlM_nil,
      (by decide : parseDate "2023-01-01" = some ⟨2023, 1, 1⟩),
      (by decide : parseDate "2023-01-15" = some ⟨2023, 1, 15⟩)]
    norm_num [Date.toDays]
  have hsort : sortSignals demoSignals3 = demoGood3 ++ [badSellSignal] := by
    have hs : sortSignals demoSignals3 = demoSignals3 :=
      List.mergeSort_of_sorted (by decide)
    rw [hs]
    rfl
  exact simulation_failure_discards_whole_symbol "SYM" demoSignals3 demoGood3
    badSellSignal demoSt3 hsort hfold rfl (by simp [demoSt3]) rfl (by decide)

end AlgoTrading
